import Mathlib

/-!
Verification of the node-rsync argument-construction and escaping engine.

This file is a shallow embedding of `src/index.ts` (the TypeScript
implementation) and of the parallel JavaScript implementation variant.
JavaScript strings are modelled as Lean `String`, the insertion-ordered
option object as an association list `List (String × OptValue)` in which
assignment to an existing key updates the value in place (preserving the
key's position) and assignment to a fresh key appends, exactly as
JavaScript object property assignment behaves for non-index string keys.
The host-platform check `process.platform === "win32"` is threaded through
as an explicit `Bool` parameter.
-/

/-- One entry value of the `_options` mapping: in the source the record type
is `Record<string, string | string[] | null>`. -/
inductive OptValue where
  | null : OptValue
  | str : String → OptValue
  | list : List String → OptValue
deriving DecidableEq, Repr

/-- JavaScript object property assignment on an insertion-ordered mapping:
an existing key keeps its position and gets the new value, a new key is
appended at the end. -/
def setKey (m : List (String × OptValue)) (k : String) (v : OptValue) :
    List (String × OptValue) :=
  if m.any (fun kv => kv.1 == k) then
    m.map (fun kv => if kv.1 == k then (k, v) else kv)
  else m ++ [(k, v)]

/-- The set of characters matched by the character class of the JavaScript
regular expression `\s` (ECMAScript WhiteSpace and LineTerminator). -/
def jsWhitespace (c : Char) : Bool :=
  c == '\t' || c == '\n' || c == '\u000B' || c == '\u000C' || c == '\r' || c == ' ' ||
  c == '\u00A0' || c == '\u1680' || ('\u2000' ≤ c && c ≤ '\u200A') || c == '\u2028' ||
  c == '\u2029' || c == '\u202F' || c == '\u205F' || c == '\u3000' || c == '\uFEFF'

/-- Replace every character satisfying `p` by a backslash followed by the
character: the effect of `str.replace(/(<class>)/g, "\\$1")` scanning
left to right. -/
def escChars (p : Char → Bool) : List Char → List Char
  | [] => []
  | c :: rest => if p c then '\\' :: c :: escChars p rest else c :: escChars p rest

/-- Characters of the class in `escapeShellArg`'s replacement regex
`/(["'`\\$])/g`. -/
def shellEscapeChar (c : Char) : Bool :=
  c == '"' || c == '\'' || c == '`' || c == '\\' || c == '$'

/-- Embedding of `escapeShellArg` (src/index.ts, lines 417-422): if the
argument contains none of `" ' `` \ $` or space it is returned unchanged,
otherwise it is wrapped in double quotes with every occurrence of
`" ' `` \ $` (not space) backslash-prefixed. -/
def escapeShellArg (arg : String) : String :=
  if arg.data.any (fun c => shellEscapeChar c || c == ' ') then
    "\"" ++ String.mk (escChars shellEscapeChar arg.data) ++ "\""
  else arg

/-- Characters of the class in `escapeFileArg`'s replacement regex
`/(["'`\s\\()\\$])/g` (the class lists the backslash twice; the set is the
same). -/
def fileSpecialChar (c : Char) : Bool :=
  c == '"' || c == '\'' || c == '`' || jsWhitespace c || c == '\\' || c == '(' ||
  c == ')' || c == '$'

/-- Test of the regex `/(\\\\)/`: does the character list contain two
adjacent backslashes? -/
def containsDoubled : List Char → Bool
  | [] => false
  | [_] => false
  | a :: b :: rest => (a == '\\' && b == '\\') || containsDoubled (b :: rest)

/-- Effect of `str.replace(/\\\\/g, "/")`: every non-overlapping pair of
adjacent backslashes, scanning left to right, becomes one forward slash. -/
def rewriteDoubled : List Char → List Char
  | [] => []
  | [a] => [a]
  | a :: b :: rest =>
    if a == '\\' && b == '\\' then '/' :: rewriteDoubled rest
    else a :: rewriteDoubled (b :: rest)

/-- Effect of `str.replace(/^["]?[A-Z]:\//gi, "/")`: an anchored match of an
optional double quote, an ASCII letter, a colon and a slash is replaced by a
single slash (at most once, since `^` cannot match again without the `m`
flag). -/
def stripDrive (cs : List Char) : List Char :=
  match cs with
  | '"' :: d :: ':' :: '/' :: rest => if d.isAlpha then '/' :: rest else cs
  | d :: ':' :: '/' :: rest => if d.isAlpha then '/' :: rest else cs
  | _ => cs

/-- Embedding of `escapeFileArg` (src/index.ts, lines 424-434): escape every
special character, return early when the escaped string has no doubled
backslash; otherwise, on the win32 platform, rewrite doubled backslashes to
slashes and strip a leading drive prefix. -/
def escapeFileArg (win32 : Bool) (filename : String) : String :=
  if containsDoubled (escChars fileSpecialChar filename.data) then
    (if win32 then
      String.mk (stripDrive (rewriteDoubled (escChars fileSpecialChar filename.data)))
    else String.mk (escChars fileSpecialChar filename.data))
  else String.mk (escChars fileSpecialChar filename.data)

/-- Embedding of `buildOption` (src/index.ts, lines 399-415). A `none` value
models the JavaScript `null`/`undefined`; the `value === ""` case falls into
the falsy branch of `if (value)` exactly like `null`. -/
def buildOption (name : String) (value : Option String)
    (escapeArg : String → String) : String :=
  let single := name.length == 1
  let pre := if single then "-" else "--"
  let glue := if single then " " else "="
  let opt := pre ++ name
  match value with
  | some v => if v == "" then opt else opt ++ glue ++ escapeArg v
  | none => opt

/-- Canonical internal state of an `Rsync` instance: the fields
`_executable`, `_executableShell`, `_options`, `_excludes`, `_includes`,
`_sources`, `_destination` of the class. (`_cwd`, `_env` and the output
handlers never influence `args()`/`command()` and are omitted.) -/
structure Rsync where
  executable : String
  executableShell : String
  options : List (String × OptValue)
  excludes : List String
  includes : List String
  sources : List String
  destination : String
deriving DecidableEq, Repr

/-- Is an options entry a short flag in the sense of the `args()` loop:
`key.length === 1 && (value === null || value === undefined)`? -/
def isShortFlag (kv : String × OptValue) : Bool :=
  kv.1.length == 1 && (match kv.2 with | OptValue.null => true | _ => false)

/-- Tokens contributed to the `long` list by one non-short-flag options
entry: one token per element for an array value, otherwise a single token. -/
def tokensForLong (key : String) (v : OptValue) : List String :=
  match v with
  | OptValue.list vs => vs.map fun val => buildOption key (some val) escapeShellArg
  | OptValue.str sv => [buildOption key (some sv) escapeShellArg]
  | OptValue.null => [buildOption key none escapeShellArg]

/-- The single pass of the `args()` loop over `Object.entries(this._options)`
that accumulates the `short` and `long` arrays in entry order. -/
def partitionOpts : List (String × OptValue) → List String × List String
  | [] => ([], [])
  | kv :: rest =>
    if isShortFlag kv then
      (kv.1 :: (partitionOpts rest).1, (partitionOpts rest).2)
    else
      ((partitionOpts rest).1, tokensForLong kv.1 kv.2 ++ (partitionOpts rest).2)

/-- Embedding of `Rsync.prototype.args` (src/index.ts, lines 292-338). -/
def Rsync.args (win32 : Bool) (r : Rsync) : List String :=
  (if (partitionOpts r.options).1.isEmpty then []
   else ["-" ++ String.join (partitionOpts r.options).1])
    ++ (partitionOpts r.options).2
    ++ r.excludes.map (fun pat => buildOption "exclude" (some pat) (escapeFileArg win32))
    ++ r.includes.map (fun pat => buildOption "include" (some pat) (escapeFileArg win32))
    ++ r.sources.map (escapeFileArg win32)
    ++ (if r.destination == "" then [] else [escapeFileArg win32 r.destination])

/-- Embedding of `Rsync.prototype.command`: executable, a space, and the
arguments joined by single spaces. -/
def Rsync.command (win32 : Bool) (r : Rsync) : String :=
  r.executable ++ " " ++ String.intercalate " " (r.args win32)

/-- The characterization of the escaping scan as a per-character flat map. -/
theorem escChars_eq_flatMap (p : Char → Bool) (cs : List Char) :
    escChars p cs = cs.flatMap (fun c => if p c then ['\\', c] else [c]) := by
  induction cs with
  | nil => simp [escChars]
  | cons c rest ih =>
    by_cases h : p c <;> simp [escChars, h, ih]

/-- The fused short/long accumulation of the `args()` loop equals the
filter-based view of the short flags paired with the flat-map view of the
remaining entries' tokens. -/
theorem partitionOpts_eq (l : List (String × OptValue)) :
    partitionOpts l =
      ((l.filter isShortFlag).map Prod.fst,
       l.flatMap fun kv => if isShortFlag kv then [] else tokensForLong kv.1 kv.2) := by
  induction l with
  | nil => simp [partitionOpts]
  | cons kv rest ih =>
    cases h : isShortFlag kv <;> simp [partitionOpts, h, ih, List.filter_cons]

/-- C1. For every configuration, `args()` renders, in this order: the
combined short-flag token (when at least one short flag exists), the
remaining option tokens in insertion order, one `--exclude` token per
exclude pattern in insertion order, one `--include` token per include
pattern in insertion order, the escaped source paths in given order, and
the escaped destination when it is non-empty. In particular every exclude
token precedes every include token and every source precedes the
destination. -/
theorem rsync_args_order (win32 : Bool) (r : Rsync) :
    r.args win32 =
      (if ((r.options.filter isShortFlag).map Prod.fst).isEmpty then []
       else ["-" ++ String.join ((r.options.filter isShortFlag).map Prod.fst)])
      ++ (r.options.flatMap fun kv => if isShortFlag kv then [] else tokensForLong kv.1 kv.2)
      ++ r.excludes.map (fun pat => buildOption "exclude" (some pat) (escapeFileArg win32))
      ++ r.includes.map (fun pat => buildOption "include" (some pat) (escapeFileArg win32))
      ++ r.sources.map (escapeFileArg win32)
      ++ (if r.destination == "" then [] else [escapeFileArg win32 r.destination]) := by
  unfold Rsync.args
  rw [partitionOpts_eq]

/-- The short-flag keys of an option mapping: the keys of length 1 whose
value is the null marker, in mapping-insertion order. -/
def shortFlagKeys (opts : List (String × OptValue)) : List String :=
  (opts.filter isShortFlag).map Prod.fst

/-- The tokens that follow the option tokens in `args()`: excludes,
includes, sources, destination. -/
def patternAndPathTokens (win32 : Bool) (r : Rsync) : List String :=
  r.excludes.map (fun pat => buildOption "exclude" (some pat) (escapeFileArg win32))
    ++ r.includes.map (fun pat => buildOption "include" (some pat) (escapeFileArg win32))
    ++ r.sources.map (escapeFileArg win32)
    ++ (if r.destination == "" then [] else [escapeFileArg win32 r.destination])

/-- C2. Every key of length 1 carrying the null marker is concatenated, in
mapping-insertion order, into the single combined token `-<chars>`, which
is emitted (as the very first token) exactly when at least one such key
exists; every other entry — longer keys, and keys of any length with a
non-null value — contributes its own separate token(s) through
`tokensForLong` instead of joining the combined token. -/
theorem rsync_short_flags_combined (win32 : Bool) (r : Rsync) :
    (shortFlagKeys r.options = [] →
      r.args win32 =
        (r.options.flatMap fun kv => if isShortFlag kv then [] else tokensForLong kv.1 kv.2)
          ++ patternAndPathTokens win32 r) ∧
    (shortFlagKeys r.options ≠ [] →
      r.args win32 =
        ("-" ++ String.join (shortFlagKeys r.options))
          :: ((r.options.flatMap fun kv => if isShortFlag kv then [] else tokensForLong kv.1 kv.2)
            ++ patternAndPathTokens win32 r)) := by
  have hp := partitionOpts_eq r.options
  unfold shortFlagKeys
  constructor
  · intro h
    unfold Rsync.args patternAndPathTokens
    rw [hp]
    dsimp only
    rw [h]
    simp [List.append_assoc]
  · intro h
    unfold Rsync.args patternAndPathTokens
    rw [hp]
    dsimp only
    rw [if_neg (by simpa using h)]
    simp [List.append_assoc]

/-- A concrete state with short flags `a`, `v`, a valued option and paths. -/
def stWitness : Rsync :=
  { executable := "rsync"
    executableShell := "/bin/sh"
    options := [("a", OptValue.null), ("v", OptValue.null), ("rsh", OptValue.str "ssh")]
    excludes := [".git"]
    includes := []
    sources := ["src/"]
    destination := "dest" }

/-- Witness for C2 at a concrete configuration with a non-empty short-flag
set. -/
theorem rsync_short_flags_combined_witness :
    shortFlagKeys stWitness.options ≠ [] ∧
    stWitness.args false =
      ("-" ++ String.join (shortFlagKeys stWitness.options))
        :: ((stWitness.options.flatMap
              fun kv => if isShortFlag kv then [] else tokensForLong kv.1 kv.2)
          ++ patternAndPathTokens false stWitness) :=
  ⟨by decide, (rsync_short_flags_combined false stWitness).2 (by decide)⟩

/-- C3. The option-escaping function returns its argument unchanged when it
contains none of double-quote, single-quote, backtick, backslash, dollar or
space; otherwise it wraps the whole value in double quotes and prefixes
every occurrence of double-quote, single-quote, backtick, backslash and
dollar inside with a backslash, leaving spaces unescaped. -/
theorem escapeShellArg_spec (s : String) :
    escapeShellArg s =
      if s.data.any (fun c => shellEscapeChar c || c == ' ') then
        "\"" ++ String.mk (s.data.flatMap fun c =>
          if shellEscapeChar c then ['\\', c] else [c]) ++ "\""
      else s := by
  unfold escapeShellArg
  split <;> simp [escChars_eq_flatMap]

/-- C4. On the non-Windows host platform the path-escaping function prefixes
each individual occurrence of double-quote, single-quote, backtick,
backslash, dollar, parenthesis or whitespace with its own single leading
backslash and adds no surrounding quotes; `some file.txt` renders as
`some\ file.txt` and `a_quoted'filename".txt` renders as
`a_quoted\'filename\".txt` on every platform. -/
theorem escapeFileArg_escapes_each_char (s : String) :
    escapeFileArg false s =
      String.mk (s.data.flatMap fun c => if fileSpecialChar c then ['\\', c] else [c]) ∧
    (∀ win32 : Bool, escapeFileArg win32 "some file.txt" = "some\\ file.txt") ∧
    (∀ win32 : Bool,
      escapeFileArg win32 "a_quoted'filename\".txt" = "a_quoted\\'filename\\\".txt") := by
  refine ⟨?_, by decide, by decide⟩
  unfold escapeFileArg
  split <;> simp [escChars_eq_flatMap]

/-- C6. An option entry whose value is the empty string renders exactly as
if it had no value: the token is only the prefixed key, with no separator
and no value appended. -/
theorem buildOption_empty_value_is_flag (key : String) (escapeArg : String → String) :
    buildOption key (some "") escapeArg = buildOption key none escapeArg ∧
    buildOption key none escapeArg = (if key.length == 1 then "-" else "--") ++ key := by
  constructor <;> simp [buildOption]

/-- Prepending a character other than a backslash does not create a doubled
backslash. -/
theorem containsDoubled_cons_ne (c : Char) (l : List Char) (h : c ≠ '\\') :
    containsDoubled (c :: l) = containsDoubled l := by
  cases l with
  | nil => simp [containsDoubled]
  | cons b rest => simp [containsDoubled, h]

/-- The escaped form of a string contains a doubled backslash exactly when
the original string contains a backslash: escaping turns each input
backslash into a pair, and no other pair of adjacent backslashes can arise. -/
theorem containsDoubled_escChars (cs : List Char) :
    containsDoubled (escChars fileSpecialChar cs) = cs.any (fun c => c == '\\') := by
  induction cs with
  | nil => simp [escChars, containsDoubled]
  | cons c rest ih =>
    by_cases hb : c = '\\'
    · subst hb
      simp [escChars, show fileSpecialChar '\\' = true from by decide, containsDoubled]
    · have hcb : (c == '\\') = false := by simp [hb]
      by_cases hs : fileSpecialChar c = true
      · simp only [escChars, hs, if_true]
        rw [containsDoubled, containsDoubled_cons_ne c _ hb]
        simp [hcb, ih]
      · have hs' : fileSpecialChar c = false := by simpa using hs
        simp only [escChars, hs', Bool.false_eq_true, if_false]
        rw [containsDoubled_cons_ne c _ hb]
        simp [hcb, ih]

/-- Does a string match the drive-letter-rooted Windows path shape
`X:\...` (ASCII letter, colon, backslash) before escaping? -/
def driveRooted (s : String) : Bool :=
  match s.data with
  | d :: ':' :: '\\' :: _ => d.isAlpha
  | _ => false

/-- C5 counterexample. On the win32 platform the POSIX conversion is
performed for the input `a\b`, which does not match the drive-letter-rooted
pattern `X:\...`: the rewrite of doubled backslashes applies (yielding
`a/b`, different from the plain escaped form), refuting the claim that the
conversion is performed exactly for drive-letter-rooted strings. -/
theorem escapeFileArg_win32_not_only_drive :
    escapeFileArg true "a\\b" = "a/b" ∧
    driveRooted "a\\b" = false ∧
    escapeFileArg true "a\\b" ≠ escapeFileArg false "a\\b" := by decide

/-- C5 amended. On the win32 platform the post-escape POSIX conversion
triggers exactly when the escaped string contains a doubled backslash,
which happens exactly when the input contains a backslash (not only for
drive-letter-rooted inputs); when it triggers, escaped double backslashes
are rewritten to forward slashes and a leading optional-quote drive prefix
is stripped; in particular `C:\home\username\develop\readme.txt` renders
as `/home/username/develop/readme.txt`. -/
theorem escapeFileArg_win32_trigger (s : String) :
    containsDoubled (escChars fileSpecialChar s.data) = s.data.any (fun c => c == '\\') ∧
    escapeFileArg true s =
      (if s.data.any (fun c => c == '\\') then
        String.mk (stripDrive (rewriteDoubled (escChars fileSpecialChar s.data)))
      else String.mk (escChars fileSpecialChar s.data)) ∧
    escapeFileArg true "C:\\home\\username\\develop\\readme.txt" =
      "/home/username/develop/readme.txt" := by
  refine ⟨containsDoubled_escChars s.data, ?_, by decide⟩
  unfold escapeFileArg
  rw [containsDoubled_escChars]
  simp

/-- A notification from the child process: the `close` event with an exit
code (`null` when the process never exited normally), or the `error` event
with a platform error. -/
inductive ProcEvent where
  | close : Option Int → ProcEvent
  | errored : String → ProcEvent
deriving DecidableEq, Repr

/-- Settlement of the promise returned by `execute()`: resolution with exit
code and command string, rejection with a structured exit error (code,
command, message), or rejection with the unaltered spawn error. -/
inductive ExecOutcome where
  | resolved : Int → String → ExecOutcome
  | rejectedExit : Int → String → String → ExecOutcome
  | rejectedSpawn : String → ExecOutcome
deriving DecidableEq, Repr

/-- String interpolation of a possibly-null exit code, as in the template
literal `rsync exited with code ${code}`. -/
def optCodeStr : Option Int → String
  | some c => toString c
  | none => "null"

/-- Embedding of the `close` handler of `execute()` (src/index.ts, lines
375-386): a non-zero (or null) code rejects with a structured error whose
`code` falls back to `-1` for null, a zero code resolves. -/
def handleClose (cmd : String) (code : Option Int) : ExecOutcome :=
  if code ≠ some 0 then
    ExecOutcome.rejectedExit (code.getD (-1)) cmd
      ("rsync exited with code " ++ optCodeStr code)
  else
    ExecOutcome.resolved (code.getD 0) cmd

/-- Embedding of the two handlers installed by `execute()`: `close` maps to
the exit outcome, `error` rejects with the spawn error unaltered. -/
def handleEvent (cmd : String) : ProcEvent → ExecOutcome
  | ProcEvent.close code => handleClose cmd code
  | ProcEvent.errored e => ExecOutcome.rejectedSpawn e

/-- Promise settlement over a sequence of received notifications: each
handler invocation calls `resolve`/`reject`, and a promise that is already
settled ignores every later call. -/
def settleFirst (cmd : String) (events : List ProcEvent) : Option ExecOutcome :=
  events.foldl
    (fun acc ev =>
      match acc with
      | some res => some res
      | none => some (handleEvent cmd ev))
    none

/-- C8. A `close` notification with exit code 0 resolves the promise with
`{code: 0, cmd}`; a `close` notification with exit code `N ≠ 0` rejects it
with an error whose `code` is `N`, whose `cmd` is the command string, and
whose message embeds the exit code. -/
theorem execute_close_exit_outcome (cmd : String) (c : Int) :
    handleEvent cmd (ProcEvent.close (some c)) =
      if c = 0 then ExecOutcome.resolved 0 cmd
      else ExecOutcome.rejectedExit c cmd ("rsync exited with code " ++ toString c) := by
  by_cases h : c = 0 <;> simp [handleEvent, handleClose, optCodeStr, h]

/-- A settled promise is unchanged by any further notifications. -/
theorem settleFold_fixed (cmd : String) (l : List ProcEvent) (res : ExecOutcome) :
    l.foldl
      (fun acc ev =>
        match acc with
        | some r => some r
        | none => some (handleEvent cmd ev))
      (some res) = some res := by
  induction l generalizing res with
  | nil => rfl
  | cons e t ih =>
    rw [List.foldl_cons]
    exact ih res

/-- C9. For every non-empty sequence of notifications, exactly one
settlement occurs, and it is determined by the first notification received:
the effect of `close` and `error` are mutually exclusive, and no later
notification — regardless of kind, order or number — changes the outcome. -/
theorem execute_single_resolution (cmd : String) (ev : ProcEvent)
    (rest : List ProcEvent) :
    settleFirst cmd (ev :: rest) = some (handleEvent cmd ev) := by
  unfold settleFirst
  rw [List.foldl_cons]
  exact settleFold_fixed cmd rest (handleEvent cmd ev)

/-- A configuration field that accepts either a scalar string or an array of
strings (`string | string[]`). -/
inductive StrOrList where
  | s : String → StrOrList
  | l : List String → StrOrList
deriving DecidableEq, Repr

/-- The constructor's options object. Fields mirror `RsyncOptions` of
src/index.ts; the trailing single-letter Boolean fields are the alias keys
that only the JavaScript implementation variant reads (`options.a`,
`options.z`, ...) — on the TypeScript variant they are inert extra
properties of the input object. -/
structure RsyncOptions where
  source : Option StrOrList := none
  destination : Option String := none
  executable : Option String := none
  executableShell : Option String := none
  flags : Option StrOrList := none
  shell : Option String := none
  delete : Bool := false
  progress : Bool := false
  archive : Bool := false
  compress : Bool := false
  recursive : Bool := false
  update : Bool := false
  quiet : Bool := false
  dirs : Bool := false
  links : Bool := false
  dry : Bool := false
  hardLinks : Bool := false
  perms : Bool := false
  executability : Bool := false
  group : Bool := false
  owner : Bool := false
  acls : Bool := false
  xattrs : Bool := false
  devices : Bool := false
  specials : Bool := false
  times : Bool := false
  chmod : Option StrOrList := none
  exclude : Option StrOrList := none
  «include» : Option StrOrList := none
  set : Option (List (String × Option String)) := none
  a : Bool := false
  z : Bool := false
  r : Bool := false
  u : Bool := false
  q : Bool := false
  d : Bool := false
  l : Bool := false
  n : Bool := false
  H : Bool := false
  p : Bool := false
  E : Bool := false
  g : Bool := false
  o : Bool := false
  A : Bool := false
  X : Bool := false
  t : Bool := false
deriving Repr

/-- Normalization of a scalar-or-array field guarded by `if (options.x)`:
absent gives the empty list, an empty string is falsy and is skipped, a
non-empty string is wrapped in a one-element array, an array (truthy even
when empty) is taken as is. Used for `source`, `exclude` and `include`. -/
def scalarOrList : Option StrOrList → List String
  | some (StrOrList.s x) => if x == "" then [] else [x]
  | some (StrOrList.l xs) => xs
  | none => []

/-- The `options.executable || "rsync"` default (empty string is falsy). -/
def executableOf (o : RsyncOptions) : String :=
  match o.executable with
  | some e => if e == "" then "rsync" else e
  | none => "rsync"

/-- The `options.executableShell || "/bin/sh"` default. -/
def executableShellOf (o : RsyncOptions) : String :=
  match o.executableShell with
  | some e => if e == "" then "/bin/sh" else e
  | none => "/bin/sh"

/-- One `if (<cond>) this._options[<key>] = null;` step. -/
def addBoolOpt (m : List (String × OptValue)) (cond : Bool) (key : String) :
    List (String × OptValue) :=
  if cond then setKey m key OptValue.null else m

/-- The `shell` step: `if (options.shell) this._options.rsh = options.shell`
(empty string is falsy). -/
def addShellOpt (m : List (String × OptValue)) (shell : Option String) :
    List (String × OptValue) :=
  match shell with
  | some sh => if sh == "" then m else setKey m "rsh" (OptValue.str sh)
  | none => m

/-- The `chmod` step: a non-empty scalar is wrapped into a one-element
array, an array is stored as is, an empty string is falsy and skipped. -/
def addChmodOpt (m : List (String × OptValue)) (chmod : Option StrOrList) :
    List (String × OptValue) :=
  match chmod with
  | some (StrOrList.s c) => if c == "" then m else setKey m "chmod" (OptValue.list [c])
  | some (StrOrList.l xs) => setKey m "chmod" (OptValue.list xs)
  | none => m

/-- The `set` step, applied last: each entry overwrites any same-named
entry while keeping its position. -/
def addSetOpts (m : List (String × OptValue))
    (entries : Option (List (String × Option String))) : List (String × OptValue) :=
  match entries with
  | some es =>
    es.foldl
      (fun acc kv =>
        setKey acc kv.1
          (match kv.2 with
           | some v => OptValue.str v
           | none => OptValue.null))
      m
  | none => m

/-- The option mapping built by the TypeScript `_processOptions`
(src/index.ts, lines 126-270), in processing order: flags, shell, delete,
progress, the boolean shorthands, chmod, then `set`. The TypeScript variant
accepts `flags` as a string (split into characters) or as an array of flag
strings. -/
def optionsMapTS (o : RsyncOptions) : List (String × OptValue) :=
  let m1 :=
    match o.flags with
    | some (StrOrList.s f) =>
      f.data.foldl (fun m c => setKey m (String.singleton c) OptValue.null) []
    | some (StrOrList.l fs) => fs.foldl (fun m fl => setKey m fl OptValue.null) []
    | none => []
  let m2 := addShellOpt m1 o.shell
  let m3 := addBoolOpt m2 o.delete "delete"
  let m4 := addBoolOpt m3 o.progress "progress"
  let m5 := addBoolOpt m4 o.archive "a"
  let m6 := addBoolOpt m5 o.compress "z"
  let m7 := addBoolOpt m6 o.recursive "r"
  let m8 := addBoolOpt m7 o.update "u"
  let m9 := addBoolOpt m8 o.quiet "q"
  let m10 := addBoolOpt m9 o.dirs "d"
  let m11 := addBoolOpt m10 o.links "l"
  let m12 := addBoolOpt m11 o.dry "n"
  let m13 := addBoolOpt m12 o.hardLinks "H"
  let m14 := addBoolOpt m13 o.perms "p"
  let m15 := addBoolOpt m14 o.executability "E"
  let m16 := addBoolOpt m15 o.group "g"
  let m17 := addBoolOpt m16 o.owner "o"
  let m18 := addBoolOpt m17 o.acls "A"
  let m19 := addBoolOpt m18 o.xattrs "X"
  let m20 := addBoolOpt m19 o.devices "devices"
  let m21 := addBoolOpt m20 o.specials "specials"
  let m22 := addBoolOpt m21 o.times "t"
  let m23 := addChmodOpt m22 o.chmod
  addSetOpts m23 o.set

/-- The option mapping built by the JavaScript `_processOptions`: identical
except that every boolean shorthand also honours its single-letter alias
(`options.archive || options.a`, ...), and `options.flags.split("")` only
works on a string (the array case is guarded in `processJS`). -/
def optionsMapJS (o : RsyncOptions) : List (String × OptValue) :=
  let m1 :=
    match o.flags with
    | some (StrOrList.s f) =>
      f.data.foldl (fun m c => setKey m (String.singleton c) OptValue.null) []
    | _ => []
  let m2 := addShellOpt m1 o.shell
  let m3 := addBoolOpt m2 o.delete "delete"
  let m4 := addBoolOpt m3 o.progress "progress"
  let m5 := addBoolOpt m4 (o.archive || o.a) "a"
  let m6 := addBoolOpt m5 (o.compress || o.z) "z"
  let m7 := addBoolOpt m6 (o.recursive || o.r) "r"
  let m8 := addBoolOpt m7 (o.update || o.u) "u"
  let m9 := addBoolOpt m8 (o.quiet || o.q) "q"
  let m10 := addBoolOpt m9 (o.dirs || o.d) "d"
  let m11 := addBoolOpt m10 (o.links || o.l) "l"
  let m12 := addBoolOpt m11 (o.dry || o.n) "n"
  let m13 := addBoolOpt m12 (o.hardLinks || o.H) "H"
  let m14 := addBoolOpt m13 (o.perms || o.p) "p"
  let m15 := addBoolOpt m14 (o.executability || o.E) "E"
  let m16 := addBoolOpt m15 (o.group || o.g) "g"
  let m17 := addBoolOpt m16 (o.owner || o.o) "o"
  let m18 := addBoolOpt m17 (o.acls || o.A) "A"
  let m19 := addBoolOpt m18 (o.xattrs || o.X) "X"
  let m20 := addBoolOpt m19 o.devices "devices"
  let m21 := addBoolOpt m20 o.specials "specials"
  let m22 := addBoolOpt m21 (o.times || o.t) "t"
  let m23 := addChmodOpt m22 o.chmod
  addSetOpts m23 o.set

/-- The state produced by the TypeScript constructor from an options
object. -/
def processTS (o : RsyncOptions) : Rsync :=
  { executable := executableOf o
    executableShell := executableShellOf o
    options := optionsMapTS o
    excludes := scalarOrList o.exclude
    includes := scalarOrList o.«include»
    sources := scalarOrList o.source
    destination := o.destination.getD "" }

/-- Does the JavaScript variant survive its unconditional
`options.flags.split("")`? An array has no `split` method and raises a
TypeError. -/
def jsFlagsOk : Option StrOrList → Bool
  | some (StrOrList.l _) => false
  | _ => true

/-- The state produced by the JavaScript constructor from an options
object, or the TypeError raised when `flags` is given as an array. -/
def processJS (o : RsyncOptions) : Except String Rsync :=
  if jsFlagsOk o.flags then
    Except.ok
      { executable := executableOf o
        executableShell := executableShellOf o
        options := optionsMapJS o
        excludes := scalarOrList o.exclude
        includes := scalarOrList o.«include»
        sources := scalarOrList o.source
        destination := o.destination.getD "" }
  else Except.error "options.flags.split is not a function"

/-- The universe of values a caller can pass as the entire configuration
argument, tagged by their JavaScript runtime type. -/
inductive ConfigInput where
  | obj : RsyncOptions → ConfigInput
  | arr : List String → ConfigInput
  | strv : String → ConfigInput
  | numv : Int → ConfigInput
  | boolv : Bool → ConfigInput

/-- The JavaScript `typeof` of a configuration argument (arrays have
`typeof` `"object"`). -/
def typeofInput : ConfigInput → String
  | ConfigInput.obj _ => "object"
  | ConfigInput.arr _ => "object"
  | ConfigInput.strv _ => "string"
  | ConfigInput.numv _ => "number"
  | ConfigInput.boolv _ => "boolean"

/-- The `Array.isArray` check on a configuration argument. -/
def isArrayInput : ConfigInput → Bool
  | ConfigInput.arr _ => true
  | _ => false

/-- Embedding of the constructor guard (src/index.ts, lines 104-107):
`typeof options !== "object" || Array.isArray(options)` throws before any
field of the input is read; otherwise the options are processed. -/
def constructTS (input : ConfigInput) : Except String Rsync :=
  if typeofInput input != "object" || isArrayInput input then
    Except.error "Rsync options must be an Object"
  else
    match input with
    | ConfigInput.obj o => Except.ok (processTS o)
    | _ => Except.error "Rsync options must be an Object"

/-- C7. Every constructor input that is not an object in the `typeof` sense
or that is an array is rejected, before any processing of its contents,
with the error message `Rsync options must be an Object`. -/
theorem constructor_rejects_non_object (input : ConfigInput)
    (h : typeofInput input ≠ "object" ∨ isArrayInput input = true) :
    constructTS input = Except.error "Rsync options must be an Object" := by
  cases input with
  | obj o =>
    rcases h with h | h <;> simp [typeofInput, isArrayInput] at h
  | arr xs => rfl
  | strv sv => rfl
  | numv nv => rfl
  | boolv bv => rfl

/-- Witness for C7: a string passed as the entire configuration argument is
rejected with the descriptive error. -/
theorem constructor_rejects_non_object_witness :
    typeofInput (ConfigInput.strv "just a string") ≠ "object" ∧
    constructTS (ConfigInput.strv "just a string") =
      Except.error "Rsync options must be an Object" :=
  ⟨by decide,
   constructor_rejects_non_object (ConfigInput.strv "just a string")
     (Or.inl (by decide))⟩

/-- C10 counterexample. The configuration `{z: true}` is accepted by both
implementation variants without throwing, yet the JavaScript variant
renders `["-z"]` (it honours the alias key `z`) while the TypeScript
variant renders `[]`, so the two do not produce the same `args()` token
list. -/
def cfgAliasZ : RsyncOptions := { z := true }

/-- C10 counterexample theorem: both variants accept `{z: true}`, and their
`args()` outputs differ. -/
theorem ts_js_args_differ_on_alias :
    (processJS cfgAliasZ).toOption.map (Rsync.args false) = some ["-z"] ∧
    Rsync.args false (processTS cfgAliasZ) = [] ∧
    (processJS cfgAliasZ).toOption.map (Rsync.args false) ≠
      some (Rsync.args false (processTS cfgAliasZ)) := by decide

/-- C10 amended. For every configuration object that both variants accept
without throwing and in which none of the single-letter alias fields
(`a z r u q d l n H p E g o A X t`) is set, the JavaScript variant
produces exactly the state of the TypeScript variant, hence the same
`args()` token list and the same `command()` string. -/
theorem ts_js_equivalent_when_no_alias (o : RsyncOptions)
    (ha : o.a = false) (hz : o.z = false) (hr : o.r = false) (hu : o.u = false)
    (hq : o.q = false) (hd : o.d = false) (hl : o.l = false) (hn : o.n = false)
    (hH : o.H = false) (hp : o.p = false) (hE : o.E = false) (hg : o.g = false)
    (ho : o.o = false) (hA : o.A = false) (hX : o.X = false) (ht : o.t = false)
    (hFlags : jsFlagsOk o.flags = true) :
    processJS o = Except.ok (processTS o) := by
  have hmap : optionsMapJS o = optionsMapTS o := by
    unfold optionsMapJS optionsMapTS
    cases hf : o.flags with
    | none =>
      simp [ha, hz, hr, hu, hq, hd, hl, hn, hH, hp, hE, hg, ho, hA, hX, ht]
    | some sl =>
      cases sl with
      | s f =>
        simp [ha, hz, hr, hu, hq, hd, hl, hn, hH, hp, hE, hg, ho, hA, hX, ht]
      | l xs =>
        rw [hf] at hFlags
        simp [jsFlagsOk] at hFlags
  unfold processJS processTS
  simp [hFlags, hmap]

/-- A concrete configuration with flags given as a string and no alias
fields. -/
def cfgPlain : RsyncOptions :=
  { flags := some (StrOrList.s "av")
    source := some (StrOrList.s "module/")
    destination := some "backup/" }

/-- Witness for C10 (amended) at a concrete configuration. -/
theorem ts_js_equivalent_witness :
    cfgPlain.a = false ∧ cfgPlain.z = false ∧ cfgPlain.r = false ∧
    cfgPlain.u = false ∧ cfgPlain.q = false ∧ cfgPlain.d = false ∧
    cfgPlain.l = false ∧ cfgPlain.n = false ∧ cfgPlain.H = false ∧
    cfgPlain.p = false ∧ cfgPlain.E = false ∧ cfgPlain.g = false ∧
    cfgPlain.o = false ∧ cfgPlain.A = false ∧ cfgPlain.X = false ∧
    cfgPlain.t = false ∧ jsFlagsOk cfgPlain.flags = true ∧
    processJS cfgPlain = Except.ok (processTS cfgPlain) :=
  ⟨rfl, rfl, rfl, rfl, rfl, rfl, rfl, rfl, rfl, rfl, rfl, rfl, rfl, rfl, rfl, rfl, rfl,
   ts_js_equivalent_when_no_alias cfgPlain rfl rfl rfl rfl rfl rfl rfl rfl rfl rfl rfl
     rfl rfl rfl rfl rfl rfl⟩
